import Mathlib

/-!
Verification of the task-registration utility of the Flat File Import
extension (`src/sql/platform/tasks/common/tasks.ts`) and its extension
manifest (`package.json`), as a shallow embedding in Lean 4.

JavaScript/TypeScript features are modelled explicitly:
* optional fields are `Option`;
* JS truthiness of a string is "defined and non-empty", truthiness of an
  object is "defined";
* a JS `Map` is an insertion-ordered association list where `set` updates
  in place and `get`/`has` search by key;
* the side effects of the surrounding host (CSS rule creation, the icon-id
  generator, the commands registry, the event emitter, the menu registry)
  are threaded through an explicit state record.
-/

namespace Tasks

/-- JS truthiness of an optional string: `undefined` and `""` are falsy. -/
def truthyStr : Option String → Bool
  | some s => s ≠ ""
  | none => false

/-- JS `a || b` on strings as used in `iconPath.light || iconPath.dark`. -/
def jsOrStr (a : Option String) (b : String) : String :=
  match a with
  | some s => if s = "" then b else s
  | none => b

/-- An icon path record `{ dark: string; light?: string }`.  In
`ITaskOptions` the `light` component is required; we embed both shapes with
`light : Option String`, which subsumes the required case. -/
structure IconPath where
  dark : String
  light : Option String
  deriving Repr, DecidableEq

/-- One entry of `ITaskHandlerDescription.args` (the `constraint` field is
a TS runtime type tag with no behaviour here and is omitted). -/
structure TaskHandlerArg where
  name : String
  description : Option String
  deriving Repr, DecidableEq

/-- Embedding of `ITaskHandlerDescription`. -/
structure ITaskHandlerDescription where
  description : String
  args : List TaskHandlerArg
  returns : Option String
  deriving Repr, DecidableEq

/-- Embedding of `ICommandAction` as built and consumed by this file: id, title and an
optional icon path.  (The `handler`/`precondition` function-valued fields of
the host types carry no data the registry inspects and are omitted.) -/
structure ICommandAction where
  id : String
  title : String
  iconPath : Option IconPath
  deriving Repr, DecidableEq

/-- Embedding of `ITask` (the `handler` closure and the `precondition` context-key
expression are opaque to the registry bookkeeping and are omitted). -/
structure ITask where
  id : String
  description : Option ITaskHandlerDescription
  iconClass : Option String
  iconPath : Option IconPath
  title : Option String
  deriving Repr, DecidableEq

/-- Embedding of `ITaskOptions`: constructor options of the `Task` class. -/
structure ITaskOptions where
  id : String
  title : String
  iconPath : IconPath
  description : Option ITaskHandlerDescription
  iconClass : Option String
  deriving Repr, DecidableEq

/-- The data fields of the abstract `Task` class (its abstract `runTask`
method is behaviour supplied by subclasses and plays no role in the
registry bookkeeping). -/
structure Task where
  id : String
  title : String
  iconPath : IconPath
  iconClassPriv : Option String
  descriptionPriv : Option ITaskHandlerDescription
  deriving Repr, DecidableEq

/-- The `Task` constructor: copies the option fields. -/
def Task.ofOptions (opts : ITaskOptions) : Task :=
  { id := opts.id
    title := opts.title
    iconPath := opts.iconPath
    iconClassPriv := opts.iconClass
    descriptionPriv := opts.description }

/-- Embedding of `Task.toITask`. -/
def Task.toITask (t : Task) : ITask :=
  { id := t.id
    description := t.descriptionPriv
    iconClass := t.iconClassPriv
    iconPath := some t.iconPath
    title := some t.title }

/-- Embedding of `Task.toCommandAction`. -/
def Task.toCommandAction (t : Task) : ICommandAction :=
  { iconPath := some t.iconPath
    id := t.id
    title := t.title }

/-! ### JS `Map` on string keys, as an insertion-ordered association list -/

/-- JS `Map.has`. -/
def mapHas {α : Type} (m : List (String × α)) (k : String) : Bool :=
  m.any (fun p => p.1 = k)

/-- JS `Map.get`: the value at the key, if present. -/
def mapGet {α : Type} (m : List (String × α)) (k : String) : Option α :=
  (m.find? (fun p => p.1 = k)).map (fun p => p.2)

/-- JS `Map.set`: updates the key in place if present, otherwise appends. -/
def mapSet {α : Type} (m : List (String × α)) (k : String) (v : α) :
    List (String × α) :=
  if mapHas m k then
    m.map (fun p => if p.1 = k then (k, v) else p)
  else
    m ++ [(k, v)]

/-! ### Registry state

The singleton `TaskRegistry` object, plus the host collaborators its
methods call, as one explicit state record:
* `tasks` is the private `_tasks : string[]`;
* `taskIdToIconClassNameMap` and `taskIdToCommandActionMap` are the two
  private maps;
* `idCounter` is the state of the module-level
  `ids = new IdGenerator('task-icon-')`: its `nextId()` returns the prefix
  followed by the incremented counter;
* `cssRules` logs every `createCSSRule(selector, content)` call;
* `eventLog` logs every `_onTaskRegistered.fire(id)` together with the
  contents of `_tasks` at the moment of firing;
* `commandsRegistered` models the ids held by `CommandsRegistry`. -/
structure RegistryState where
  tasks : List String
  taskIdToIconClassNameMap : List (String × String)
  taskIdToCommandActionMap : List (String × ICommandAction)
  idCounter : Nat
  cssRules : List (String × String)
  eventLog : List (String × List String)
  commandsRegistered : List String
  deriving Repr, DecidableEq

/-- The initial state: empty list, empty maps, generator at zero. -/
def initialState : RegistryState :=
  { tasks := []
    taskIdToIconClassNameMap := []
    taskIdToCommandActionMap := []
    idCounter := 0
    cssRules := []
    eventLog := []
    commandsRegistered := [] }

/-- Modelled from the spec: the host `IdGenerator('task-icon-')`, a fresh
CSS-class-name allocator (`vs/base/common/idGenerator`, not under `src/`);
`nextId()` increments a counter and returns the prefix with its new value. -/
def nextIconId (c : Nat) : String × Nat :=
  ("task-icon-" ++ toString (c + 1), c + 1)

/-- Modelled from the spec: `URI.file(p).toString()` of the host
(`vs/base/common/uri`, not under `src/`), abstracted as a `file://` URI
string; only the identity of created CSS rules matters to the claims. -/
def uriFileString (p : String) : String :=
  "file://" ++ p

/-- The argument of `TaskRegistry.registerTask`: either `(id, handler)` or
a whole `ITask` (the handler function itself is opaque). -/
inductive TaskArg where
  | str (id : String)
  | task (t : ITask)
  deriving Repr, DecidableEq

/-- The id a `registerTask` argument carries: the bare id, or the task's id. -/
def TaskArg.argId : TaskArg → String
  | .str id => id
  | .task t => t.id

/-- Embedding of `TaskRegistry.registerTask`.  Returns the new state together with the
`id` captured by the returned disposable. -/
def registerTask (arg : TaskArg) (s : RegistryState) : RegistryState × String :=
  match arg with
  | .str id =>
      let s1 := { s with commandsRegistered := s.commandsRegistered ++ [id] }
      let s2 := { s1 with tasks := s1.tasks ++ [id] }
      let s3 := { s2 with eventLog := s2.eventLog ++ [(id, s2.tasks)] }
      (s3, id)
  | .task t =>
      let s1 :=
        if truthyStr t.iconClass then
          { s with taskIdToIconClassNameMap :=
              mapSet s.taskIdToIconClassNameMap t.id (t.iconClass.getD "") }
        else s
      let act : ICommandAction :=
        { iconPath := t.iconPath, id := t.id, title := t.title.getD "" }
      let s2 :=
        if t.iconPath.isSome && truthyStr t.title then
          { s1 with taskIdToCommandActionMap :=
              mapSet s1.taskIdToCommandActionMap t.id act }
        else s1
      let s3 := { s2 with commandsRegistered := s2.commandsRegistered ++ [t.id] }
      let s4 := { s3 with tasks := s3.tasks ++ [t.id] }
      let s5 := { s4 with eventLog := s4.eventLog ++ [(t.id, s4.tasks)] }
      (s5, t.id)

/-- The `dispose` closure of the value `registerTask` returns, capturing the
registered `id`.  The source line `this._tasks = this._tasks.splice(index, 1)`
assigns to `_tasks` the array that `splice` *returns*, namely the removed
elements `[_tasks[index]]`; the embedding reproduces exactly that.  It then
disposes the `CommandsRegistry` registration (modelled from the spec as
removing the first occurrence of the id from the host command list). -/
def disposeRegistration (id : String) (s : RegistryState) : RegistryState :=
  let s1 :=
    match s.tasks.indexOf? id with
    | some i => { s with tasks := (s.tasks.drop i).take 1 }
    | none => s
  { s1 with commandsRegistered := s1.commandsRegistered.erase id }

/-- Embedding of `TaskRegistry.getOrCreateTaskIconClassName`: returns the (possibly
`null`) class name and the new state. -/
def getOrCreateTaskIconClassName (item : ICommandAction) (s : RegistryState) :
    Option String × RegistryState :=
  if mapHas s.taskIdToIconClassNameMap item.id then
    (mapGet s.taskIdToIconClassNameMap item.id, s)
  else
    match item.iconPath with
    | some p =>
        let pair := nextIconId s.idCounter
        let iconClass := pair.1
        let rule1 := (".icon." ++ iconClass,
          "background-image: url(\"" ++ uriFileString (jsOrStr p.light p.dark) ++ "\")")
        let rule2 := (".vs-dark .icon." ++ iconClass ++ ", .hc-black .icon." ++ iconClass,
          "background-image: url(\"" ++ uriFileString p.dark ++ "\")")
        let s1 := { s with
          idCounter := pair.2
          cssRules := s.cssRules ++ [rule1, rule2]
          taskIdToIconClassNameMap :=
            mapSet s.taskIdToIconClassNameMap item.id iconClass }
        (some iconClass, s1)
    | none => (none, s)

/-- Embedding of `TaskRegistry.getTasks`: `this._tasks.slice(0)`, a copy of the id list. -/
def getTasks (s : RegistryState) : List String :=
  s.tasks

/-- Embedding of `TaskRegistry.getCommandActionById`. -/
def getCommandActionById (taskId : String) (s : RegistryState) :
    Option ICommandAction :=
  mapGet s.taskIdToCommandActionMap taskId

/-- Modelled from the spec: the host `MenuRegistry`
(`vs/platform/actions/common/actions`, not under `src/`), exposing commands
to the command palette; `addCommand` appends the command action. -/
structure MenuRegistryState where
  commands : List ICommandAction
  deriving Repr, DecidableEq

/-- Modelled from the spec: `MenuRegistry.addCommand`. -/
def MenuRegistryState.addCommand (m : MenuRegistryState)
    (c : ICommandAction) : MenuRegistryState :=
  { commands := m.commands ++ [c] }

/-- Embedding of `Task.registerTask(showInCommandPalette)`: optionally adds the command
action to `MenuRegistry`, then registers the `ITask` in `TaskRegistry`. -/
def Task.registerTask (t : Task) (showInCommandPalette : Bool)
    (menu : MenuRegistryState) (s : RegistryState) :
    MenuRegistryState × RegistryState × String :=
  let menu1 := if showInCommandPalette then menu.addCommand t.toCommandAction else menu
  let p := Tasks.registerTask (.task t.toITask) s
  (menu1, p.1, p.2)

/-! ### The extension manifest (`package.json`) -/

/-- A contributed command of the manifest. -/
structure CommandContribution where
  command : String
  title : String
  category : String
  iconLight : String
  iconDark : String
  deriving Repr, DecidableEq

/-- A contributed keybinding of the manifest. -/
structure KeybindingContribution where
  command : String
  key : String
  mac : String
  deriving Repr, DecidableEq

/-- A contributed context-menu item of the manifest. -/
structure MenuItemContribution where
  command : String
  whenClause : String
  group : String
  deriving Repr, DecidableEq

/-- The fields of the extension manifest the claims are about. -/
structure Manifest where
  name : String
  displayName : String
  extensionDependencies : List String
  commands : List CommandContribution
  keybindings : List KeybindingContribution
  dashboardWidgetTasks : List String
  objectExplorerItemContext : List MenuItemContribution
  deriving Repr, DecidableEq

/-- The Flat File Import extension manifest, transcribed from `package.json`
(the `dashboardWidgetTasks` field is the `tasks-widget` list of the
`flat-file-import-container` dashboard container). -/
def flatFileImportManifest : Manifest :=
  { name := "import"
    displayName := "SQL Server Import"
    extensionDependencies := ["Microsoft.mssql"]
    commands := [
      { command := "flatFileImport.start"
        title := "Import wizard"
        category := "Flat File Import"
        iconLight := "./images/light_icon.svg"
        iconDark := "./images/dark_icon.svg" }]
    keybindings := [
      { command := "flatFileImport.start", key := "ctrl+i", mac := "ctrl+i" }]
    dashboardWidgetTasks := ["flatFileImport.start"]
    objectExplorerItemContext := [
      { command := "flatFileImport.start"
        whenClause := "connectionProvider == MSSQL && nodeType && nodeType == Database"
        group := "import" }] }

/-! ### A store model of `getTasks`'s array copy

`getTasks` returns `this._tasks.slice(0)`.  To state that the returned
array is a fresh copy (mutating it does not affect later `getTasks` calls),
arrays are modelled as references into a store of string lists: the
registry holds a reference `tasksRef`, `slice(0)` allocates a fresh array
holding the same elements, and mutation writes through a reference. -/
structure TasksHeap where
  store : List (List String)
  tasksRef : Nat
  deriving Repr, DecidableEq

/-- Read the array behind a reference (empty for a dangling reference). -/
def heapRead (h : TasksHeap) (r : Nat) : List String :=
  (h.store.getD r [])

/-- Allocate a fresh array holding `v`; returns the new heap and reference. -/
def heapAlloc (h : TasksHeap) (v : List String) : TasksHeap × Nat :=
  ({ h with store := h.store ++ [v] }, h.store.length)

/-- Overwrite the array behind a reference (in-place mutation). -/
def heapWrite (h : TasksHeap) (r : Nat) (v : List String) : TasksHeap :=
  { h with store := h.store.set r v }

/-- Embedding of `getTasks` in the store model: `slice(0)` copies the registry's task
array into a freshly allocated array and returns a reference to the copy. -/
def getTasksRef (h : TasksHeap) : TasksHeap × Nat :=
  heapAlloc h (heapRead h h.tasksRef)

/-! ### Helper lemmas about the JS `Map` model -/

theorem mapHas_eq_find_isSome {α : Type} (m : List (String × α)) (k : String) :
    mapHas m k = (m.find? (fun p => p.1 = k)).isSome := by
  induction m with
  | nil => rfl
  | cons p m ih =>
      by_cases hp : p.1 = k
      · simp [mapHas, List.find?_cons_of_pos, hp]
      · rw [mapHas, List.any_cons, List.find?_cons_of_neg _ (by simp [hp])]
        simpa [mapHas, hp] using ih

theorem find_replace_of_has {α : Type} (m : List (String × α)) (k : String)
    (v : α) (h : mapHas m k = true) :
    (m.map (fun p => if p.1 = k then (k, v) else p)).find? (fun p => p.1 = k) =
      some (k, v) := by
  induction m with
  | nil => simp [mapHas] at h
  | cons p m ih =>
      by_cases hp : p.1 = k
      · simp [hp, List.find?_cons_of_pos]
      · have h' : mapHas m k = true := by
          simp only [mapHas, List.any_cons] at h
          rcases Bool.or_eq_true_iff.mp h with h | h
          · exact absurd (of_decide_eq_true h) hp
          · exact h
        simpa [hp, List.find?_cons_of_neg] using ih h'

theorem mapGet_mapSet_self {α : Type} (m : List (String × α)) (k : String)
    (v : α) : mapGet (mapSet m k v) k = some v := by
  by_cases h : mapHas m k = true
  · have hset : mapSet m k v = m.map (fun p => if p.1 = k then (k, v) else p) := by
      simp [mapSet, h]
    unfold mapGet
    rw [hset, find_replace_of_has m k v h]
    rfl
  · have hf : m.find? (fun p => p.1 = k) = none := by
      have hiso := mapHas_eq_find_isSome m k
      rw [Bool.not_eq_true] at h
      rw [h] at hiso
      exact Option.not_isSome_iff_eq_none.mp (by simp [← hiso])
    simp [mapSet, h, mapGet, List.find?_append, hf]

theorem mapHas_mapSet_self {α : Type} (m : List (String × α)) (k : String)
    (v : α) : mapHas (mapSet m k v) k = true := by
  rw [mapHas_eq_find_isSome]
  have := mapGet_mapSet_self m k v
  unfold mapGet at this
  rcases hfind : (mapSet m k v).find? (fun p => p.1 = k) with _ | p
  · rw [hfind] at this; simp at this
  · rw [hfind]; rfl

/-! ### A characterization of `registerTask` on an `ITask` argument -/

theorem registerTask_task_eq (t : ITask) (s : RegistryState) :
    registerTask (.task t) s =
      ({ tasks := s.tasks ++ [t.id]
         taskIdToIconClassNameMap :=
           if truthyStr t.iconClass then
             mapSet s.taskIdToIconClassNameMap t.id (t.iconClass.getD "")
           else s.taskIdToIconClassNameMap
         taskIdToCommandActionMap :=
           if t.iconPath.isSome && truthyStr t.title then
             mapSet s.taskIdToCommandActionMap t.id
               ({ iconPath := t.iconPath, id := t.id, title := t.title.getD "" })
           else s.taskIdToCommandActionMap
         idCounter := s.idCounter
         cssRules := s.cssRules
         eventLog := s.eventLog ++ [(t.id, s.tasks ++ [t.id])]
         commandsRegistered := s.commandsRegistered ++ [t.id] }, t.id) := by
  by_cases h1 : truthyStr t.iconClass = true <;>
    by_cases h2 : (t.iconPath.isSome && truthyStr t.title) = true <;>
      simp [registerTask, h1, h2]

/-! ### The claims -/

/-- Claim C1 (code bug): the claim says disposing a registration removes
that id from `getTasks()` and leaves every other registered id.  The code
instead executes `this._tasks = this._tasks.splice(index, 1)`, assigning to
`_tasks` the array of *removed* elements that `splice` returns.  Concretely:
after registering `"a"` and then `"b"`, disposing the registration of `"a"`
leaves `getTasks()` equal to `["a"]` — the disposed id alone — instead of
`["b"]`. -/
theorem dispose_keeps_only_disposed_id :
    getTasks (disposeRegistration "a"
      ((registerTask (.task
          ({ id := "b", description := none, iconClass := none,
             iconPath := none, title := none }))
        ((registerTask (.task
            ({ id := "a", description := none, iconClass := none,
               iconPath := none, title := none })) initialState).1)).1)) =
      ["a"] := by
  rfl

/-- Claim C5: the `Task` constructor copies its option fields faithfully,
`toITask` reproduces id, title (as the defined optional title), iconPath
(as the defined optional icon path), iconClass and description, and
`toCommandAction` reproduces id, title and iconPath. -/
theorem task_wraps_options_faithfully (opts : ITaskOptions) :
    (Task.ofOptions opts).toITask.id = opts.id ∧
    (Task.ofOptions opts).toITask.title = some opts.title ∧
    (Task.ofOptions opts).toITask.iconPath = some opts.iconPath ∧
    (Task.ofOptions opts).toITask.iconClass = opts.iconClass ∧
    (Task.ofOptions opts).toITask.description = opts.description ∧
    (Task.ofOptions opts).toCommandAction.id = opts.id ∧
    (Task.ofOptions opts).toCommandAction.title = opts.title ∧
    (Task.ofOptions opts).toCommandAction.iconPath = some opts.iconPath :=
  ⟨rfl, rfl, rfl, rfl, rfl, rfl, rfl, rfl⟩

/-- Claim C6: `Task.registerTask` with `showInCommandPalette = true` appends
the task's command action to the menu registry and appends the task id to
the task registry's list; with `showInCommandPalette = false` it leaves the
menu registry unchanged while still appending the task id. -/
theorem task_registerTask_palette_effect (t : Task) (menu : MenuRegistryState)
    (s : RegistryState) :
    (Task.registerTask t true menu s).1 =
      ({ commands := menu.commands ++ [t.toCommandAction] }) ∧
    getTasks (Task.registerTask t true menu s).2.1 = getTasks s ++ [t.id] ∧
    (Task.registerTask t false menu s).1 = menu ∧
    getTasks (Task.registerTask t false menu s).2.1 = getTasks s ++ [t.id] := by
  refine ⟨rfl, ?_, rfl, ?_⟩ <;>
    simp [Task.registerTask, registerTask_task_eq, getTasks, Task.toITask,
      MenuRegistryState.addCommand]

/-- Claim C7: the manifest references the wizard command `flatFileImport.start`
in its contributed commands, keybindings, dashboard tasks widget and
object-explorer context menu, and declares the extension dependency
`Microsoft.mssql`. -/
theorem manifest_references_start_command :
    flatFileImportManifest.commands.map (fun c => c.command) =
      ["flatFileImport.start"] ∧
    flatFileImportManifest.keybindings.map (fun k => k.command) =
      ["flatFileImport.start"] ∧
    flatFileImportManifest.dashboardWidgetTasks = ["flatFileImport.start"] ∧
    flatFileImportManifest.objectExplorerItemContext.map (fun mi => mi.command) =
      ["flatFileImport.start"] ∧
    "Microsoft.mssql" ∈ flatFileImportManifest.extensionDependencies :=
  ⟨rfl, rfl, rfl, rfl, List.mem_singleton.mpr rfl⟩

/-- Claim C8: when the item's id has no entry in the icon-class map and the
item has no icon path, `getOrCreateTaskIconClassName` returns `null` and
leaves the registry state unchanged. -/
theorem getOrCreate_absent_returns_null (item : ICommandAction)
    (s : RegistryState)
    (hmap : mapHas s.taskIdToIconClassNameMap item.id = false)
    (hpath : item.iconPath = none) :
    getOrCreateTaskIconClassName item s = (none, s) := by
  simp [getOrCreateTaskIconClassName, hmap, hpath]

/-- Witness for C8 at a concrete item and the initial state. -/
theorem getOrCreate_absent_returns_null_witness :
    getOrCreateTaskIconClassName
      ({ id := "w8", title := "t", iconPath := none }) initialState =
      (none, initialState) :=
  getOrCreate_absent_returns_null
    ({ id := "w8", title := "t", iconPath := none }) initialState rfl rfl

/-- Claim C10: every `registerTask` call — with a bare id or with an
`ITask`, and with no deduplication — appends the id to the task list (so a
duplicate id occurs one more time than before) and fires `onTaskRegistered`
exactly once with that id; the fired event's recorded task-list snapshot
already contains the appended id, i.e. the event fires after the append. -/
theorem registerTask_appends_and_fires (arg : TaskArg) (s : RegistryState) :
    ((registerTask arg s).1).tasks = s.tasks ++ [arg.argId] ∧
    ((registerTask arg s).1).tasks.count arg.argId =
      s.tasks.count arg.argId + 1 ∧
    ((registerTask arg s).1).eventLog =
      s.eventLog ++ [(arg.argId, s.tasks ++ [arg.argId])] := by
  cases arg with
  | str id =>
      refine ⟨rfl, ?_, rfl⟩
      simp [registerTask, TaskArg.argId]
  | task t =>
      rw [registerTask_task_eq]
      refine ⟨rfl, ?_, rfl⟩
      simp [TaskArg.argId]

/-- A task whose `title` is defined but empty: the JS guard
`if (idOrTask.iconPath && idOrTask.title)` treats `""` as falsy. -/
def c2cexTask : ITask :=
  { id := "x", description := none, iconClass := none,
    iconPath := some { dark := "d", light := some "l" }, title := some "" }

/-- Claim C2 counterexample: a task whose `iconPath` and `title` are both
set (defined) but whose title is the empty string is registered, yet
`getCommandActionById` finds no command action for its id, because the
source guards the map insertion with JS truthiness of the title. -/
theorem register_set_empty_title_loses_command_action :
    (c2cexTask.iconPath.isSome = true ∧ c2cexTask.title.isSome = true) ∧
    getTasks ((registerTask (.task c2cexTask) initialState).1) = ["x"] ∧
    getCommandActionById "x" ((registerTask (.task c2cexTask) initialState).1) =
      none :=
  ⟨⟨rfl, rfl⟩, rfl, rfl⟩

/-- Claim C2 (amended): for every task whose `iconPath` is set and whose
`title` is set and non-empty, after `registerTask` the id is in
`getTasks()` and `getCommandActionById` returns the command action holding
exactly the task's id, title and iconPath. -/
theorem register_sets_command_action (t : ITask) (s : RegistryState)
    (hpath : t.iconPath.isSome = true) (htitle : truthyStr t.title = true) :
    t.id ∈ getTasks ((registerTask (.task t) s).1) ∧
    getCommandActionById t.id ((registerTask (.task t) s).1) =
      some ({ iconPath := t.iconPath, id := t.id, title := t.title.getD "" }) := by
  rw [registerTask_task_eq]
  constructor
  · simp [getTasks]
  · simp [getCommandActionById, hpath, htitle, mapGet_mapSet_self]

/-- The concrete task used to witness the amended C2. -/
def c2wTask : ITask :=
  { id := "w2", description := none, iconClass := none,
    iconPath := some { dark := "d", light := some "l" }, title := some "T" }

/-- Witness for the amended C2 at a concrete task and the initial state. -/
theorem register_sets_command_action_witness :
    "w2" ∈ getTasks ((registerTask (.task c2wTask) initialState).1) ∧
    getCommandActionById "w2" ((registerTask (.task c2wTask) initialState).1) =
      some ({ iconPath := some { dark := "d", light := some "l" },
              id := "w2", title := "T" }) :=
  register_sets_command_action c2wTask initialState rfl rfl

/-- Claim C3: `getOrCreateTaskIconClassName` is idempotent on an item with
an icon path — the second call returns the same class name and the very
same state (hence it allocates no new class name, creates no CSS rule and
leaves the id-to-icon-class map unchanged). -/
theorem getOrCreateTaskIconClassName_idempotent (item : ICommandAction)
    (s : RegistryState) (hpath : item.iconPath.isSome = true) :
    getOrCreateTaskIconClassName item (getOrCreateTaskIconClassName item s).2 =
      getOrCreateTaskIconClassName item s := by
  by_cases h : mapHas s.taskIdToIconClassNameMap item.id = true
  · simp [getOrCreateTaskIconClassName, h]
  · rcases hp : item.iconPath with _ | p
    · rw [hp] at hpath; exact absurd hpath (by simp)
    · have hmap : (getOrCreateTaskIconClassName item s).2.taskIdToIconClassNameMap
          = mapSet s.taskIdToIconClassNameMap item.id (nextIconId s.idCounter).1 := by
        simp [getOrCreateTaskIconClassName, h, hp]
      have hfst : (getOrCreateTaskIconClassName item s).1
          = some (nextIconId s.idCounter).1 := by
        simp [getOrCreateTaskIconClassName, h, hp]
      have hhas : mapHas
          ((getOrCreateTaskIconClassName item s).2.taskIdToIconClassNameMap)
          item.id = true := by
        rw [hmap]; exact mapHas_mapSet_self _ _ _
      have hget : mapGet
          ((getOrCreateTaskIconClassName item s).2.taskIdToIconClassNameMap)
          item.id = (getOrCreateTaskIconClassName item s).1 := by
        rw [hmap, hfst]; exact mapGet_mapSet_self _ _ _
      generalize hX : getOrCreateTaskIconClassName item s = X at hhas hget ⊢
      unfold getOrCreateTaskIconClassName
      simp [hhas, hget]

/-- The concrete item used to witness C3. -/
def c3Item : ICommandAction :=
  { id := "w3", title := "t", iconPath := some { dark := "d", light := none } }

/-- Witness for C3 at a concrete item and the initial state. -/
theorem getOrCreateTaskIconClassName_idempotent_witness :
    getOrCreateTaskIconClassName c3Item
        (getOrCreateTaskIconClassName c3Item initialState).2 =
      getOrCreateTaskIconClassName c3Item initialState :=
  getOrCreateTaskIconClassName_idempotent c3Item initialState rfl

/-- A task whose `iconClass` is defined but empty: the JS guard
`if (idOrTask.iconClass)` treats `""` as falsy, so it is never stored. -/
def c4cexTask : ITask :=
  { id := "y", description := none, iconClass := some "",
    iconPath := none, title := none }

/-- The item whose later lookup exposes the C4 counterexample. -/
def c4cexItem : ICommandAction :=
  { id := "y", title := "t", iconPath := some { dark := "d", light := none } }

/-- Claim C4 counterexample: a task registered with a set — but empty —
`iconClass` is not entered into the icon-class map; a later
`getOrCreateTaskIconClassName` on the same id with an icon path therefore
allocates a fresh class name (the generator counter moves from 0 to 1),
creates two CSS rules, and returns `task-icon-1` rather than the
registered icon class. -/
theorem registered_empty_iconClass_still_allocates :
    c4cexTask.iconClass.isSome = true ∧
    ((registerTask (.task c4cexTask) initialState).1).idCounter = 0 ∧
    ((registerTask (.task c4cexTask) initialState).1).cssRules = [] ∧
    (getOrCreateTaskIconClassName c4cexItem
        ((registerTask (.task c4cexTask) initialState).1)).1 =
      some "task-icon-1" ∧
    (getOrCreateTaskIconClassName c4cexItem
        ((registerTask (.task c4cexTask) initialState).1)).2.idCounter = 1 ∧
    ((getOrCreateTaskIconClassName c4cexItem
        ((registerTask (.task c4cexTask) initialState).1)).2.cssRules).length =
      2 :=
  ⟨rfl, rfl, rfl, rfl, rfl, rfl⟩

/-- Claim C4 (amended): for every task registered with a set *non-empty*
`iconClass`, a call to `getOrCreateTaskIconClassName` on the resulting
state with any item bearing that task's id returns the registered icon
class and leaves the state exactly unchanged (no fresh class name, no CSS
rule), regardless of the item's icon path. -/
theorem registered_iconClass_wins (t : ITask) (s : RegistryState)
    (item : ICommandAction) (hclass : truthyStr t.iconClass = true)
    (hid : item.id = t.id) :
    getOrCreateTaskIconClassName item ((registerTask (.task t) s).1) =
      (some (t.iconClass.getD ""), (registerTask (.task t) s).1) := by
  rw [registerTask_task_eq]
  unfold getOrCreateTaskIconClassName
  simp [hid, hclass, mapHas_mapSet_self, mapGet_mapSet_self]

/-- The concrete task used to witness the amended C4. -/
def c4wTask : ITask :=
  { id := "w4", description := none, iconClass := some "myicon",
    iconPath := none, title := none }

/-- The concrete item (carrying an icon path) used to witness the amended
C4. -/
def c4wItem : ICommandAction :=
  { id := "w4", title := "t", iconPath := some { dark := "d", light := none } }

/-- Witness for the amended C4 at a concrete task, item and the initial
state. -/
theorem registered_iconClass_wins_witness :
    getOrCreateTaskIconClassName c4wItem
        ((registerTask (.task c4wTask) initialState).1) =
      (some "myicon", (registerTask (.task c4wTask) initialState).1) :=
  registered_iconClass_wins c4wTask initialState c4wItem rfl rfl

/-- Claim C9: in the store model, `getTasks` (`slice(0)`) leaves the
registry's array reference and its contents unchanged, returns a fresh
array holding the same ids, and overwriting the returned array does not
change what the registry's array — hence a subsequent `getTasks` — holds. -/
theorem getTasks_returns_fresh_copy (h : TasksHeap) (v : List String)
    (hlt : h.tasksRef < h.store.length) :
    ((getTasksRef h).1).tasksRef = h.tasksRef ∧
    heapRead (getTasksRef h).1 h.tasksRef = heapRead h h.tasksRef ∧
    heapRead (getTasksRef h).1 (getTasksRef h).2 = heapRead h h.tasksRef ∧
    heapRead (heapWrite (getTasksRef h).1 (getTasksRef h).2 v) h.tasksRef =
      heapRead h h.tasksRef := by
  refine ⟨rfl, ?_, ?_, ?_⟩
  · simp [getTasksRef, heapAlloc, heapRead, List.getD_eq_getElem?_getD,
      List.getElem?_append, hlt]
  · simp [getTasksRef, heapAlloc, heapRead, List.getD_eq_getElem?_getD,
      List.getElem?_concat_length]
  · have hne : h.store.length ≠ h.tasksRef := Nat.ne_of_gt hlt
    simp [getTasksRef, heapAlloc, heapWrite, heapRead,
      List.getD_eq_getElem?_getD, List.getElem?_set_ne hne,
      List.getElem?_append, hlt]

/-- Witness for C9 at a concrete one-array heap and a concrete overwrite. -/
theorem getTasks_returns_fresh_copy_witness :
    ((getTasksRef { store := [["a"]], tasksRef := 0 }).1).tasksRef = 0 ∧
    heapRead (getTasksRef { store := [["a"]], tasksRef := 0 }).1 0 =
      heapRead { store := [["a"]], tasksRef := 0 } 0 ∧
    heapRead (getTasksRef { store := [["a"]], tasksRef := 0 }).1
        (getTasksRef { store := [["a"]], tasksRef := 0 }).2 =
      heapRead { store := [["a"]], tasksRef := 0 } 0 ∧
    heapRead (heapWrite (getTasksRef { store := [["a"]], tasksRef := 0 }).1
        (getTasksRef { store := [["a"]], tasksRef := 0 }).2 ["z"]) 0 =
      heapRead { store := [["a"]], tasksRef := 0 } 0 :=
  getTasks_returns_fresh_copy { store := [["a"]], tasksRef := 0 } ["z"]
    (by decide)

end Tasks
